import Mathlib

/-!
Shallow embedding of the Catch2 incremental test-traversal recorder,
output-capture sink and vstest result grouper
(catch_reporter_incremental_base.cpp, catch_output_redirect.cpp,
catch_reporter_vstest.cpp), together with theorems checking the
natural-language specification against it.

Machine conventions: wall-clock timestamps are modelled as natural numbers
supplied by the caller (the code reads `system_clock::now()`); the bytes of the
redirect backing file are modelled as a `List Char`; exceptions
(`CATCH_ERROR`) are modelled with `Except`/`Option`; randomly generated GUID
fields are omitted (they carry no information relevant to any claim).
-/

namespace Catch2

/-- Source file / line pair (Catch::SourceLineInfo). -/
structure SourceLineInfo where
  file : String
  line : Nat
deriving DecidableEq, Repr

/-- Section metadata (Catch::SectionInfo): a name plus its source location. -/
structure SectionInfo where
  name : String
  lineInfo : SourceLineInfo
deriving DecidableEq, Repr

/-- Section completion record (Catch::SectionStats); only the fields the
reporters read are modelled. -/
structure SectionStats where
  sectionInfo : SectionInfo
deriving DecidableEq, Repr

/-- An informational message attached to an assertion. -/
structure MessageInfo where
  message : String
deriving DecidableEq, Repr

/-- The part of Catch::AssertionResult the reporters read: source location,
the expanded expression text, and whether the assertion is considered ok. -/
structure AssertionResult where
  sourceInfo : SourceLineInfo
  expandedExpression : String
  isOk : Bool
deriving DecidableEq, Repr

/-- Catch::AssertionStats: the assertion result plus attached info messages. -/
structure AssertionStats where
  assertionResult : AssertionResult
  infoMessages : List MessageInfo
deriving DecidableEq, Repr

/-! ## Output capture sink (catch_output_redirect.cpp, OutputRedirectSink)

The OS-level pieces (fd duplication, `dup2`, unbuffered `FILE*`) reduce, for
the byte streams involved, to: every write to the redirected channel lands at
the end of the backing temp file; `TempFile::getContents(startPosition)` reads
the bytes from `startPosition` to the end of file; `TempFile::reopen` truncates
the file (it reopens with mode "w+"). -/

/-- State of one OutputRedirectSink: the bytes currently in the backing temp
file and the `m_lastGetPosition` read cursor. -/
structure OutputRedirectSink where
  contents : List Char
  lastGetPosition : Nat
deriving DecidableEq, Repr

/-- A freshly constructed sink: empty backing file, cursor at 0. -/
def OutputRedirectSink.create : OutputRedirectSink :=
  { contents := [], lastGetPosition := 0 }

/-- A write to the redirected channel appends to the backing temp file. -/
def OutputRedirectSink.write (s : OutputRedirectSink) (text : List Char) :
    OutputRedirectSink :=
  { s with contents := s.contents ++ text }

/-- OutputRedirectSink::getContentsFromPosition: read from `position` to end of
file, set `m_lastGetPosition` to `position + result.size()`. Returns the bytes
read and the updated sink. -/
def OutputRedirectSink.getContentsFromPosition (s : OutputRedirectSink)
    (position : Nat) : List Char × OutputRedirectSink :=
  let result := s.contents.drop position
  (result, { s with lastGetPosition := position + result.length })

/-- OutputRedirectSink::getAllContents: read from position 0. -/
def OutputRedirectSink.getAllContents (s : OutputRedirectSink) :
    List Char × OutputRedirectSink :=
  s.getContentsFromPosition 0

/-- OutputRedirectSink::getLatestContents: read from `m_lastGetPosition`. -/
def OutputRedirectSink.getLatestContents (s : OutputRedirectSink) :
    List Char × OutputRedirectSink :=
  s.getContentsFromPosition s.lastGetPosition

/-- OutputRedirectSink::reset: rebind the descriptor and `TempFile::reopen` the
backing file, truncating it. Note the source does not touch
`m_lastGetPosition` here. -/
def OutputRedirectSink.reset (s : OutputRedirectSink) : OutputRedirectSink :=
  { s with contents := [] }

/-! ## Traversal record (IncrementalSectionTraversal) -/

/-- One depth-first section traversal
(Catch::IncrementalSectionTraversal). `stdOutSourceSink`/`stdErrSourceSink`
are the optional per-traversal redirect sinks present under
CATCH_CONFIG_EXPERIMENTAL_REDIRECT (absent = `nullptr`). -/
structure IncrementalSectionTraversal where
  allSectionInfo : List SectionInfo
  allSectionStats : List SectionStats
  allAssertionsWithExpansions : List (AssertionStats × String)
  fatalSignalName : String
  fatalSignalSourceInfo : String × Nat
  testRunInfo : String
  testGroupInfo : String
  testTags : List String
  startTime : Nat
  finishTime : Nat
  stdOutStream : String
  stdErrStream : String
  stdOutSourceSink : Option OutputRedirectSink
  stdErrSourceSink : Option OutputRedirectSink
deriving DecidableEq, Repr

/-- The default-constructed traversal record. -/
def IncrementalSectionTraversal.init : IncrementalSectionTraversal :=
  { allSectionInfo := []
    allSectionStats := []
    allAssertionsWithExpansions := []
    fatalSignalName := ""
    fatalSignalSourceInfo := ("", 0)
    testRunInfo := ""
    testGroupInfo := ""
    testTags := []
    startTime := 0
    finishTime := 0
    stdOutStream := ""
    stdErrStream := ""
    stdOutSourceSink := none
    stdErrSourceSink := none }

/-- IncrementalSectionTraversal::getFlushedStdOut: if a stdout redirect sink is
attached, append its contents to the traversal's stdout stream and reset the
sink. (The C++ returns a reference to the stream; callers then append to it.) -/
def IncrementalSectionTraversal.flushStdOut (t : IncrementalSectionTraversal) :
    IncrementalSectionTraversal :=
  match t.stdOutSourceSink with
  | some sink =>
      let rs := sink.getAllContents
      { t with
        stdOutStream := t.stdOutStream ++ String.mk rs.1
        stdOutSourceSink := some rs.2.reset }
  | none => t

/-- IncrementalSectionTraversal::getFlushedStdErr, analogously. -/
def IncrementalSectionTraversal.flushStdErr (t : IncrementalSectionTraversal) :
    IncrementalSectionTraversal :=
  match t.stdErrSourceSink with
  | some sink =>
      let rs := sink.getAllContents
      { t with
        stdErrStream := t.stdErrStream ++ String.mk rs.1
        stdErrSourceSink := some rs.2.reset }
  | none => t

/-- The text the `for` loop over `assertion.infoMessages` appends to the
flushed stdout stream. -/
def infoMessagesText (a : AssertionStats) : String :=
  a.infoMessages.foldl (fun acc m => acc ++ "INFO: " ++ m.message ++ "\n") ""

/-- IncrementalSectionTraversal::addAssertion. If a fatal signal was already
recorded, only the assertion's source location is written into the companion
field; otherwise the assertion is appended (with its expanded expression) and
its info messages are appended to the flushed stdout stream. -/
def IncrementalSectionTraversal.addAssertion (t : IncrementalSectionTraversal)
    (assertion : AssertionStats) : IncrementalSectionTraversal :=
  if t.fatalSignalName ≠ "" then
    let lineInfo := assertion.assertionResult.sourceInfo
    { t with fatalSignalSourceInfo := (lineInfo.file, lineInfo.line) }
  else
    let expanded := assertion.assertionResult.expandedExpression
    let t1 := { t with allAssertionsWithExpansions :=
        t.allAssertionsWithExpansions ++ [(assertion, expanded)] }
    let t2 := t1.flushStdOut
    { t2 with stdOutStream := t2.stdOutStream ++ infoMessagesText assertion }

/-- IncrementalSectionTraversal::isComplete. -/
def IncrementalSectionTraversal.isComplete (t : IncrementalSectionTraversal) :
    Bool :=
  !t.allSectionInfo.isEmpty &&
    t.allSectionInfo.length == t.allSectionStats.length

/-- IncrementalSectionTraversal::isOk. -/
def IncrementalSectionTraversal.isOk (t : IncrementalSectionTraversal) : Bool :=
  t.isComplete && t.fatalSignalName == "" &&
    t.allAssertionsWithExpansions.all fun entry => entry.1.assertionResult.isOk

/-! ## Traversal recorder (IncrementalReporterBase) -/

/-- Hook notifications fired by the recorder (the virtual
`sectionTraversalStarting` / `sectionTraversalEnded` methods). -/
inductive HookEvent where
  | traversalStarting
  | traversalEnded
deriving DecidableEq, Repr

/-- Catch::TestCaseStats: only the accumulated stdout/stderr text the
incremental base reads in `testCaseEnded`. -/
structure TestCaseStats where
  stdOut : String
  stdErr : String
deriving DecidableEq, Repr

/-- State of an IncrementalReporterBase: the run/group/tag context copied on
the respective start events, the completed traversals, the current in-flight
traversal, and a log of the hook notifications fired so far. -/
structure IncrementalReporterBase where
  currentTestRunInfo : String
  currentTestGroupInfo : String
  currentTestTags : List String
  completedTraversals : List IncrementalSectionTraversal
  currentTraversal : IncrementalSectionTraversal
  hookLog : List HookEvent
deriving DecidableEq, Repr

/-- IncrementalReporterBase::getTraversals: the completed collection copied in
a forward loop, then the current traversal appended when it has at least one
section. -/
def IncrementalReporterBase.getTraversals (s : IncrementalReporterBase) :
    List IncrementalSectionTraversal :=
  let result := s.completedTraversals.foldl (fun acc t => acc ++ [t]) []
  if !s.currentTraversal.allSectionInfo.isEmpty then
    result ++ [s.currentTraversal]
  else
    result

/-- IncrementalReporterBase::sectionStarting: when the current record has no
sections yet, stamp the start time, copy in the run/group/tag context and fire
the traversal-starting hook; then append the section info. `now` stands for
`system_clock::now()`. -/
def IncrementalReporterBase.sectionStarting (s : IncrementalReporterBase)
    (sectionInfo : SectionInfo) (now : Nat) : IncrementalReporterBase :=
  let s1 :=
    if s.currentTraversal.allSectionInfo.isEmpty then
      { s with
        currentTraversal := { s.currentTraversal with
          startTime := now
          testRunInfo := s.currentTestRunInfo
          testGroupInfo := s.currentTestGroupInfo
          testTags := s.currentTestTags }
        hookLog := s.hookLog ++ [HookEvent.traversalStarting] }
    else s
  { s1 with currentTraversal := { s1.currentTraversal with
      allSectionInfo := s1.currentTraversal.allSectionInfo ++ [sectionInfo] } }

/-- IncrementalReporterBase::assertionEnded: forward to the current record only
when the assertion is not ok. -/
def IncrementalReporterBase.assertionEnded (s : IncrementalReporterBase)
    (assertionStats : AssertionStats) : IncrementalReporterBase :=
  if !assertionStats.assertionResult.isOk then
    { s with currentTraversal := s.currentTraversal.addAssertion assertionStats }
  else s

/-- IncrementalReporterBase::sectionEnded: append the stats; if the record is
then complete, flush both capture streams into it, stamp `finishTime`, move it
into the completed collection, hand its still-open redirect sinks to the fresh
current record (`setRedirectSinksFromPredecessor` releases them from the
stored record), and fire the traversal-ended hook. -/
def IncrementalReporterBase.sectionEnded (s : IncrementalReporterBase)
    (sectionStats : SectionStats) (now : Nat) : IncrementalReporterBase :=
  let cur := { s.currentTraversal with
    allSectionStats := s.currentTraversal.allSectionStats ++ [sectionStats] }
  if cur.isComplete then
    let flushed := cur.flushStdOut.flushStdErr
    let finished := { flushed with finishTime := now }
    let stored := { finished with
      stdOutSourceSink := none
      stdErrSourceSink := none }
    let fresh := { IncrementalSectionTraversal.init with
      stdOutSourceSink := finished.stdOutSourceSink
      stdErrSourceSink := finished.stdErrSourceSink }
    { s with
      completedTraversals := s.completedTraversals ++ [stored]
      currentTraversal := fresh
      hookLog := s.hookLog ++ [HookEvent.traversalEnded] }
  else
    { s with currentTraversal := cur }

/-- IncrementalReporterBase::fatalErrorEncountered: record the signal name on
the current traversal. -/
def IncrementalReporterBase.fatalErrorEncountered (s : IncrementalReporterBase)
    (signalName : String) : IncrementalReporterBase :=
  { s with currentTraversal :=
      { s.currentTraversal with fatalSignalName := signalName } }

/-- The flush-and-append that the body of
IncrementalReporterBase::testCaseEnded performs on its target traversal:
`traversal.getFlushedStdOut() << testStats.stdOut` and
`traversal.getFlushedStdErr() << testStats.stdErr`. -/
def appendRedirectedOutput (t : IncrementalSectionTraversal)
    (testStats : TestCaseStats) : IncrementalSectionTraversal :=
  let t1 := t.flushStdOut
  let t2 := { t1 with stdOutStream := t1.stdOutStream ++ testStats.stdOut }
  let t3 := t2.flushStdErr
  { t3 with stdErrStream := t3.stdErrStream ++ testStats.stdErr }

/-- IncrementalReporterBase::testCaseEnded: append the test case's accumulated
stdout/stderr to the last completed traversal, or to the current traversal
when there is no completed traversal or the current one has a fatal signal. -/
def IncrementalReporterBase.testCaseEnded (s : IncrementalReporterBase)
    (testStats : TestCaseStats) : IncrementalReporterBase :=
  if s.completedTraversals.isEmpty ∨ s.currentTraversal.fatalSignalName ≠ "" then
    { s with currentTraversal :=
        appendRedirectedOutput s.currentTraversal testStats }
  else
    { s with completedTraversals :=
        s.completedTraversals.dropLast ++
          [appendRedirectedOutput
            (s.completedTraversals.getLastD IncrementalSectionTraversal.init)
            testStats] }

/-! ## Trx name sanitization (getSanitizedTrxName) -/

/-- The whitespace characters Catch::trim removes ("\n\r\t "). -/
def isTrimWhitespace (c : Char) : Bool :=
  c == '\n' || c == '\r' || c == '\t' || c == ' '

/-- Catch::trim: remove leading and trailing whitespace. -/
def trimChars (cs : List Char) : List Char :=
  ((cs.dropWhile isTrimWhitespace).reverse.dropWhile isTrimWhitespace).reverse

/-- Mode of the getSanitizedTrxName scanning loop, rendering its index
arithmetic character by character: `normal` is the top of the `for` loop,
`inTag` is the `do i++; while (rawName[i-1] != ']')` skip that runs from a `[`
to the first following `]`, and `afterTag` is the position right after that
`]`, where one space is dropped when the tag group sat between two spaces. -/
inductive SanMode where
  | normal
  | inTag
  | afterTag
deriving DecidableEq, Repr

/-- The scanning loop of getSanitizedTrxName. `cs` is the unread remainder of
the raw name, `lastChar` the last character copied to the output, `acc` the
output so far. A `[` with no `]` anywhere after it makes the whole scan fail
(CATCH_ERROR, modelled as `none`): entering `inTag` and exhausting the input
without meeting `]` is exactly the `rawName.find(']', i) == npos` condition. A
`,` is dropped; every other character outside a tag group is copied. -/
def sanitizeLoop (cs : List Char) (mode : SanMode) (lastChar : Char)
    (acc : List Char) : Option (List Char) :=
  match cs, mode with
  | [], SanMode.inTag => none
  | [], _ => some acc
  | c :: rest, SanMode.inTag =>
      if c = ']' then sanitizeLoop rest SanMode.afterTag lastChar acc
      else sanitizeLoop rest SanMode.inTag lastChar acc
  | c :: rest, SanMode.afterTag =>
      if lastChar = ' ' ∧ c = ' ' then
        sanitizeLoop rest SanMode.normal lastChar acc
      else if c = '[' then sanitizeLoop rest SanMode.inTag lastChar acc
      else if c = ',' then sanitizeLoop rest SanMode.normal lastChar acc
      else sanitizeLoop rest SanMode.normal c (acc ++ [c])
  | c :: rest, SanMode.normal =>
      if c = '[' then sanitizeLoop rest SanMode.inTag lastChar acc
      else if c = ',' then sanitizeLoop rest SanMode.normal lastChar acc
      else sanitizeLoop rest SanMode.normal c (acc ++ [c])

/-- getSanitizedTrxName: scan the raw name stripping `[tag]` groups and commas,
then trim; an unterminated `[` is a hard error (CATCH_ERROR). -/
def getSanitizedTrxName (rawName : String) : Except String String :=
  match sanitizeLoop rawName.toList SanMode.normal (Char.ofNat 0) [] with
  | none => Except.error ("Unclosed [tag] in name: " ++ rawName)
  | some cs => Except.ok (String.mk (trimChars cs))

/-! ## Duration formatting (nanosToDurationString) -/

/-- Zero-padding of a decimal rendering to `width` characters (the effect of
`std::setfill('0') << std::setw(width)` and of `%0Nllu`); values already wider
are not truncated. -/
def padNat (width : Nat) (n : Nat) : String :=
  let s := toString n
  if s.length < width then String.mk (List.replicate (width - s.length) '0') ++ s
  else s

/-- nanosToDurationString from catch_reporter_vstest.cpp. The stream insert for
the fractional part uses `std::setw(-7)`: a negative field width never exceeds
the output length, so the fractional digits are emitted without padding; the
hours value is inserted as `totalHours % 60`. -/
def nanosToDurationString (nanos : Nat) : String :=
  let totalHns := nanos / 100
  let totalSeconds := nanos / 1000000000
  let totalMinutes := totalSeconds / 60
  let totalHours := totalMinutes / 60
  padNat 2 (totalHours % 60) ++ ":" ++ padNat 2 (totalMinutes % 60) ++ ":" ++
    padNat 2 (totalSeconds % 60) ++ "." ++ toString (totalHns % 10000000)

/-- nanosToDurationString from the older vstest reporter translation unit: a
`snprintf` with format `"%02llu:%02llu:%02llu.%07llu"` applied to hours clamped
at 99, minutes and seconds modulo 60, and the hundred-nanosecond count modulo
10^7. -/
def nanosToDurationStringLegacy (nanos : Nat) : String :=
  let totalSeconds := nanos / 1000000000
  let totalMinutes := totalSeconds / 60
  let totalHours := totalMinutes / 60
  padNat 2 (min totalHours 99) ++ ":" ++ padNat 2 (totalMinutes % 60) ++ ":" ++
    padNat 2 (totalSeconds % 60) ++ "." ++ padNat 7 ((nanos / 100) % 10000000)

/-! ## Streaming vstest reporter (StreamingReporterUnwindContext, VstestEntry,
VstestReporter::flushCurrentUnwindContext) -/

/-- One unwind context: a single depth-first traversal of the section
hierarchy as recorded by the streaming vstest reporter. -/
structure StreamingReporterUnwindContext where
  allSectionInfo : List SectionInfo
  allSectionStats : List SectionStats
  allTerminatedAssertions : List AssertionStats
  allExpandedAssertionStatements : List String
  startTimestamp : String
  endTimestamp : String
  stdOut : String
  stdErr : String
  hasFatalError : Bool
  fatalAssertionSource : String
  elapsedNanoseconds : Nat
deriving DecidableEq, Repr

/-- The default-constructed unwind context. -/
def StreamingReporterUnwindContext.init : StreamingReporterUnwindContext :=
  { allSectionInfo := []
    allSectionStats := []
    allTerminatedAssertions := []
    allExpandedAssertionStatements := []
    startTimestamp := ""
    endTimestamp := ""
    stdOut := ""
    stdErr := ""
    hasFatalError := false
    fatalAssertionSource := ""
    elapsedNanoseconds := 0 }

/-- StreamingReporterUnwindContext::onFatalErrorCondition. -/
def StreamingReporterUnwindContext.onFatalErrorCondition
    (c : StreamingReporterUnwindContext) : StreamingReporterUnwindContext :=
  { c with hasFatalError := true }

/-- StreamingReporterUnwindContext::addAssertion: with a fatal error pending,
only `fatalAssertionSource` ("file:line") is rewritten; otherwise the
assertion and its expanded expression are appended and the info messages are
appended to the captured stdout. -/
def StreamingReporterUnwindContext.addAssertion
    (c : StreamingReporterUnwindContext) (assertionStats : AssertionStats) :
    StreamingReporterUnwindContext :=
  if c.hasFatalError then
    let info := assertionStats.assertionResult.sourceInfo
    { c with fatalAssertionSource := info.file ++ ":" ++ toString info.line }
  else
    { c with
      allTerminatedAssertions := c.allTerminatedAssertions ++ [assertionStats]
      allExpandedAssertionStatements := c.allExpandedAssertionStatements ++
        [assertionStats.assertionResult.expandedExpression]
      stdOut := c.stdOut ++ infoMessagesText assertionStats }

/-- StreamingReporterUnwindContext::unwindIsComplete. -/
def StreamingReporterUnwindContext.unwindIsComplete
    (c : StreamingReporterUnwindContext) : Bool :=
  !c.allSectionStats.isEmpty &&
    c.allSectionStats.length == c.allSectionInfo.length

/-- VstestEntry: one logical test result grouping the unwind contexts that
share a root section name. The randomly generated `testId`/`executionId` GUIDs
are omitted. -/
structure VstestEntry where
  name : String
  tags : List String
  unwindContexts : List StreamingReporterUnwindContext
deriving DecidableEq, Repr

/-- The grouping state of a VstestReporter: completed test entries plus the
in-flight unwind context and the current test case tags. -/
structure VstestReporterState where
  completedTestEntries : List VstestEntry
  currentUnwindContext : StreamingReporterUnwindContext
  currentTestCaseTags : List String
deriving DecidableEq, Repr

/-- The state of the current unwind context after
`m_completedTestEntries[...].push_back(std::move(m_currentUnwindContext))`
followed by `m_currentUnwindContext.clear()`: the four vectors are cleared (by
`clear`), the moved-from strings are empty, and the scalar members
(`hasFatalError`, `elapsedNanoseconds`), which moving copies, keep their
values. -/
def StreamingReporterUnwindContext.afterMoveAndClear
    (c : StreamingReporterUnwindContext) : StreamingReporterUnwindContext :=
  { StreamingReporterUnwindContext.init with
    hasFatalError := c.hasFatalError
    elapsedNanoseconds := c.elapsedNanoseconds }

/-- VstestReporter::flushCurrentUnwindContext. No-op on an empty stats vector;
otherwise the elapsed time and end timestamp are recorded on the context, the
root of the traversal is taken as the name of its *last* section stats entry
(sections close root-last), and the context is appended to the last completed
test entry when that entry's name equals the sanitized root name
(`isUnwindFromCurrentTest`), or to a freshly pushed entry otherwise. `elapsed`
stands for `m_timer.getElapsedNanoseconds()` and `now` for
`currentTimestamp()`; a sanitization failure propagates (CATCH_ERROR). -/
def VstestReporterState.flushCurrentUnwindContext (s : VstestReporterState)
    (elapsed : Nat) (now : String) : Except String VstestReporterState :=
  match s.currentUnwindContext.allSectionStats.getLast? with
  | none => Except.ok s
  | some lastStats =>
    match getSanitizedTrxName lastStats.sectionInfo.name with
    | Except.error e => Except.error e
    | Except.ok sanitized =>
      let ctx := { s.currentUnwindContext with
        elapsedNanoseconds := elapsed
        endTimestamp := now }
      let newEntries :=
        match s.completedTestEntries.getLast? with
        | some entry =>
          if entry.name = sanitized then
            s.completedTestEntries.dropLast ++
              [{ entry with unwindContexts := entry.unwindContexts ++ [ctx] }]
          else
            s.completedTestEntries ++
              [{ name := sanitized
                 tags := s.currentTestCaseTags
                 unwindContexts := [ctx] }]
        | none =>
          s.completedTestEntries ++
            [{ name := sanitized
               tags := s.currentTestCaseTags
               unwindContexts := [ctx] }]
      Except.ok { s with
        completedTestEntries := newEntries
        currentUnwindContext := ctx.afterMoveAndClear }

/-- Feed a flat, ordered list of finished traversals through
`flushCurrentUnwindContext` one at a time (each `sectionEnded` on a completed
unwind triggers exactly one flush); the timer and timestamp inputs reproduce
each traversal's own recorded values. -/
def runGroupingAux (s : VstestReporterState)
    (ts : List StreamingReporterUnwindContext) :
    Except String (List VstestEntry) :=
  match ts with
  | [] => Except.ok s.completedTestEntries
  | t :: rest =>
    match VstestReporterState.flushCurrentUnwindContext
        { s with currentUnwindContext := t }
        t.elapsedNanoseconds t.endTimestamp with
    | Except.error e => Except.error e
    | Except.ok s1 => runGroupingAux s1 rest

/-- The result grouper: partition an ordered traversal list into test entries
by running the flush step over it from the initial reporter state. -/
def runGrouping (ts : List StreamingReporterUnwindContext) :
    Except String (List VstestEntry) :=
  runGroupingAux
    { completedTestEntries := []
      currentUnwindContext := StreamingReporterUnwindContext.init
      currentTestCaseTags := [] } ts

/-! ## Concrete fixtures used by witnesses and counterexamples -/

/-- Sink state of the C6 capture scenario after `beginCapture` and a write of
"foo". -/
def sinkAfterFoo : OutputRedirectSink :=
  OutputRedirectSink.create.write "foo".toList

/-- First read of the scenario: readAll on the sink holding "foo". -/
def sinkReadFoo : List Char × OutputRedirectSink :=
  sinkAfterFoo.getAllContents

/-- Second read of the scenario: readLatest after a further write of "bar". -/
def sinkReadBar : List Char × OutputRedirectSink :=
  (sinkReadFoo.2.write "bar".toList).getLatestContents

/-- Sink state of the scenario after reset() and a write of "baz". -/
def sinkAfterBaz : OutputRedirectSink :=
  sinkReadBar.2.reset.write "baz".toList

/-- A concrete section for use in witnesses and counterexamples. -/
def sectionA : SectionInfo :=
  { name := "A", lineInfo := { file := "test.cpp", line := 10 } }

/-- A second concrete section. -/
def sectionB : SectionInfo :=
  { name := "B", lineInfo := { file := "test.cpp", line := 20 } }

/-- Concrete section stats for `sectionA`. -/
def statsA : SectionStats := { sectionInfo := sectionA }

/-- Concrete section stats for `sectionB`. -/
def statsB : SectionStats := { sectionInfo := sectionB }

/-- A concrete failing assertion carrying one info message. -/
def exampleAssertion : AssertionStats :=
  { assertionResult :=
      { sourceInfo := { file := "test.cpp", line := 42 }
        expandedExpression := "1 == 2"
        isOk := false }
    infoMessages := [{ message := "ctx" }] }

/-- A traversal that already recorded a fatal signal. -/
def fatalTraversal : IncrementalSectionTraversal :=
  { IncrementalSectionTraversal.init with
    allSectionInfo := [sectionA, sectionB]
    fatalSignalName := "SIGSEGV" }

/-- An unwind context that already recorded a fatal error. -/
def fatalUnwindContext : StreamingReporterUnwindContext :=
  { StreamingReporterUnwindContext.init with
    allSectionInfo := [sectionA, sectionB]
    hasFatalError := true }

/-- A concrete reporter state whose current traversal has one open section and
an attached stdout redirect sink holding "out". -/
def promotionState : IncrementalReporterBase :=
  { currentTestRunInfo := ""
    currentTestGroupInfo := ""
    currentTestTags := []
    completedTraversals := []
    currentTraversal := { IncrementalSectionTraversal.init with
      allSectionInfo := [sectionA]
      stdOutSourceSink := some (OutputRedirectSink.mk "out".toList 0) }
    hookLog := [] }

/-- A third concrete section. -/
def sectionC : SectionInfo :=
  { name := "C", lineInfo := { file := "test.cpp", line := 30 } }

/-- A root section of a second test. -/
def sectionX : SectionInfo :=
  { name := "X", lineInfo := { file := "other.cpp", line := 5 } }

/-- A leaf section of the second test. -/
def sectionY : SectionInfo :=
  { name := "Y", lineInfo := { file := "other.cpp", line := 6 } }

/-- Completed traversal A/B: sections open root-first and close leaf-first, so
the stats sequence ends with the root. -/
def unwindAB : StreamingReporterUnwindContext :=
  { StreamingReporterUnwindContext.init with
    allSectionInfo := [sectionA, sectionB]
    allSectionStats := [{ sectionInfo := sectionB }, { sectionInfo := sectionA }] }

/-- Completed traversal A/C. -/
def unwindAC : StreamingReporterUnwindContext :=
  { StreamingReporterUnwindContext.init with
    allSectionInfo := [sectionA, sectionC]
    allSectionStats := [{ sectionInfo := sectionC }, { sectionInfo := sectionA }] }

/-- Completed traversal X/Y. -/
def unwindXY : StreamingReporterUnwindContext :=
  { StreamingReporterUnwindContext.init with
    allSectionInfo := [sectionX, sectionY]
    allSectionStats := [{ sectionInfo := sectionY }, { sectionInfo := sectionX }] }

/-- A one-section completed traversal whose root is named "A" at line 1. -/
def unwindRootLine1 : StreamingReporterUnwindContext :=
  { StreamingReporterUnwindContext.init with
    allSectionInfo := [{ name := "A", lineInfo := { file := "t.cpp", line := 1 } }]
    allSectionStats :=
      [{ sectionInfo := { name := "A", lineInfo := { file := "t.cpp", line := 1 } } }] }

/-- A one-section completed traversal whose root is named "A" at line 2: its
first section identifier (name, location) differs from `unwindRootLine1`. -/
def unwindRootLine2 : StreamingReporterUnwindContext :=
  { StreamingReporterUnwindContext.init with
    allSectionInfo := [{ name := "A", lineInfo := { file := "t.cpp", line := 2 } }]
    allSectionStats :=
      [{ sectionInfo := { name := "A", lineInfo := { file := "t.cpp", line := 2 } } }] }

/-- The grouper state right after the A/B traversal of the C7 scenario. -/
def c7State : VstestReporterState :=
  { completedTestEntries :=
      [{ name := "A", tags := [], unwindContexts := [unwindAB] }]
    currentUnwindContext := unwindAC
    currentTestCaseTags := [] }

/-! ## Theorems -/

/-- Claim C1: for every traversal record, isComplete() is true if and only if
the section path (allSectionInfo) is non-empty and its length equals the
length of the section stats sequence (allSectionStats); the same
characterization holds for the streaming unwind context's
unwindIsComplete(). -/
theorem isComplete_iff_sectionPath (t : IncrementalSectionTraversal)
    (c : StreamingReporterUnwindContext) :
    (t.isComplete = true ↔
      t.allSectionInfo ≠ [] ∧
        t.allSectionInfo.length = t.allSectionStats.length) ∧
    (c.unwindIsComplete = true ↔
      c.allSectionInfo ≠ [] ∧
        c.allSectionInfo.length = c.allSectionStats.length) := by
  constructor
  · simp [IncrementalSectionTraversal.isComplete, List.isEmpty_iff]
  · simp only [StreamingReporterUnwindContext.unwindIsComplete,
      Bool.and_eq_true, Bool.not_eq_true', List.isEmpty_eq_false,
      beq_iff_eq, ne_eq]
    constructor
    · rintro ⟨h1, h2⟩
      refine ⟨?_, h2.symm⟩
      intro h
      rw [h] at h2
      simp at h2
      exact h1 h2
    · rintro ⟨h1, h2⟩
      refine ⟨?_, h2.symm⟩
      intro h
      rw [h] at h2
      simp at h2
      exact h1 h2

/-- Claim C6 (amended): getAllContents returns the full current backing store,
getLatestContents returns only the bytes captured since the previous read on
the sink, reset() attaches a fresh empty backing store but leaves the read
cursor unchanged, and the capture scenario — write "foo", readAll, write
"bar", readLatest, reset, write "baz", readAll — yields "foo", "bar" and
"baz". -/
theorem outputRedirectSink_read_contract :
    (∀ s : OutputRedirectSink, s.getAllContents.1 = s.contents) ∧
    (∀ (s : OutputRedirectSink) (t : List Char),
      s.lastGetPosition = s.contents.length →
      ((s.write t).getLatestContents).1 = t) ∧
    (∀ s : OutputRedirectSink,
      s.reset.contents = [] ∧ s.reset.lastGetPosition = s.lastGetPosition) ∧
    (sinkReadFoo.1 = "foo".toList ∧ sinkReadBar.1 = "bar".toList ∧
      sinkAfterBaz.getAllContents.1 = "baz".toList) := by
  refine ⟨?_, ?_, ?_, by decide⟩
  · intro s
    simp [OutputRedirectSink.getAllContents,
      OutputRedirectSink.getContentsFromPosition]
  · intro s t h
    simp [OutputRedirectSink.getLatestContents,
      OutputRedirectSink.getContentsFromPosition, OutputRedirectSink.write, h]
  · intro s
    exact ⟨rfl, rfl⟩

/-- Claim C6 witness: the second conjunct of the read contract applied to a
concrete sink whose cursor sits at the end of its 2-byte store. -/
theorem outputRedirectSink_read_contract_witness :
    ((OutputRedirectSink.mk "ab".toList 2).write "cd".toList).getLatestContents.1 =
      "cd".toList :=
  outputRedirectSink_read_contract.2.1 (OutputRedirectSink.mk "ab".toList 2)
    "cd".toList (by decide)

/-- Claim C6 counterexample: after write "foo" and a readAll, reset() leaves
the read cursor at 3 rather than resetting it to 0, so reading the latest
contents after writing "ba" to the fresh store returns nothing instead of
"ba". -/
theorem outputRedirectSink_reset_cursor_counterexample :
    sinkReadFoo.2.reset.lastGetPosition = 3 ∧
      sinkReadFoo.2.reset.lastGetPosition ≠ 0 ∧
      (sinkReadFoo.2.reset.write "ba".toList).getLatestContents.1 = [] ∧
      (sinkReadFoo.2.reset.write "ba".toList).getLatestContents.1 ≠
        "ba".toList := by decide

/-- Claim C9: evaluation of the duration renderers at the claimed inputs. The
vstest reporter's nanosToDurationString renders 0 ns as "00:00:00.0" — the
negative field width of std::setw(-7) applies no zero padding to the
fractional digits — and 3,661,000,000,000 ns as "01:01:01.0", diverging from
the claimed "00:00:00.0000000" and "01:01:01.0000000"; the older
snprintf-based variant produces exactly the claimed strings. -/
theorem nanosToDurationString_divergence :
    nanosToDurationString 0 = "00:00:00.0" ∧
    nanosToDurationString 0 ≠ "00:00:00.0000000" ∧
    nanosToDurationString 3661000000000 = "01:01:01.0" ∧
    nanosToDurationStringLegacy 0 = "00:00:00.0000000" ∧
    nanosToDurationStringLegacy 3661000000000 = "01:01:01.0000000" :=
  ⟨rfl, by decide, rfl, rfl, rfl⟩

/-- Claim C3: with a fatal signal already set, addAssertion leaves the
assertions collection unchanged (its length does not grow) and performs only
the constant-size write of the assertion's source file and line into the
fatal-signal companion field; with no fatal signal set, it appends the
assertion together with its expanded expression text and appends the attached
info messages to the captured standard output. The same dichotomy holds for
the streaming unwind context's addAssertion. -/
theorem addAssertion_fatal_dichotomy (t : IncrementalSectionTraversal)
    (c : StreamingReporterUnwindContext) (a : AssertionStats) :
    (t.fatalSignalName ≠ "" →
      (t.addAssertion a).allAssertionsWithExpansions =
          t.allAssertionsWithExpansions ∧
        (t.addAssertion a).allAssertionsWithExpansions.length =
          t.allAssertionsWithExpansions.length ∧
        t.addAssertion a = { t with fatalSignalSourceInfo :=
          (a.assertionResult.sourceInfo.file,
            a.assertionResult.sourceInfo.line) }) ∧
    (t.fatalSignalName = "" →
      (t.addAssertion a).allAssertionsWithExpansions =
          t.allAssertionsWithExpansions ++
            [(a, a.assertionResult.expandedExpression)] ∧
        (t.addAssertion a).stdOutStream =
          t.flushStdOut.stdOutStream ++ infoMessagesText a) ∧
    (c.hasFatalError = true →
      (c.addAssertion a).allTerminatedAssertions = c.allTerminatedAssertions ∧
        c.addAssertion a = { c with fatalAssertionSource :=
          (a.assertionResult.sourceInfo.file ++ ":" ++
            toString a.assertionResult.sourceInfo.line) }) ∧
    (c.hasFatalError = false →
      (c.addAssertion a).allTerminatedAssertions =
          c.allTerminatedAssertions ++ [a] ∧
        (c.addAssertion a).stdOut = c.stdOut ++ infoMessagesText a) := by
  refine ⟨?_, ?_, ?_, ?_⟩
  · intro h
    simp [IncrementalSectionTraversal.addAssertion, h]
  · intro h
    cases ht : t.stdOutSourceSink <;>
      simp [IncrementalSectionTraversal.addAssertion, h,
        IncrementalSectionTraversal.flushStdOut, ht]
  · intro h
    simp [StreamingReporterUnwindContext.addAssertion, h]
  · intro h
    simp [StreamingReporterUnwindContext.addAssertion, h]

/-- Claim C3 witness: the dichotomy applied to concrete records with and
without a fatal signal. -/
theorem addAssertion_fatal_dichotomy_witness :
    (fatalTraversal.addAssertion exampleAssertion).allAssertionsWithExpansions.length =
        fatalTraversal.allAssertionsWithExpansions.length ∧
      (IncrementalSectionTraversal.init.addAssertion
          exampleAssertion).allAssertionsWithExpansions =
        [(exampleAssertion, "1 == 2")] ∧
      (fatalUnwindContext.addAssertion
          exampleAssertion).allTerminatedAssertions =
        fatalUnwindContext.allTerminatedAssertions := by
  refine ⟨?_, ?_, ?_⟩
  · exact ((addAssertion_fatal_dichotomy fatalTraversal fatalUnwindContext
      exampleAssertion).1 (by decide)).2.1
  · have h := ((addAssertion_fatal_dichotomy IncrementalSectionTraversal.init
      fatalUnwindContext exampleAssertion).2.1 (by decide)).1
    simpa [IncrementalSectionTraversal.init, exampleAssertion] using h
  · exact ((addAssertion_fatal_dichotomy fatalTraversal fatalUnwindContext
      exampleAssertion).2.2.1 (by decide)).1

/-- Claim C4 counterexample: on a current traversal whose fatal signal is
already set, a sectionEnd event still appends to the heap-owning section stats
vector (it grows from 0 to 1 entries). -/
theorem fatal_restriction_counterexample :
    (let s : IncrementalReporterBase :=
      { currentTestRunInfo := ""
        currentTestGroupInfo := ""
        currentTestTags := []
        completedTraversals := []
        currentTraversal := fatalTraversal
        hookLog := [] }
     s.currentTraversal.fatalSignalName ≠ "" ∧
       s.currentTraversal.allSectionStats.length = 0 ∧
       (s.sectionEnded statsB 0).currentTraversal.allSectionStats.length = 1 ∧
       (s.sectionStarting sectionA 0).currentTraversal.allSectionInfo.length =
         3) := by decide

/-- Claim C4 (amended): once a fatal signal is set on a traversal,
addAssertion appends to none of its heap-owning containers — only the
fixed-size fatal source field is written — but sectionStart and sectionEnd
events still append to the section path and section stats vectors. -/
theorem fatal_restriction_amended (s : IncrementalReporterBase)
    (t : IncrementalSectionTraversal) (a : AssertionStats) (si : SectionInfo)
    (stats : SectionStats) (now : Nat) :
    (t.fatalSignalName ≠ "" →
      (t.addAssertion a).allAssertionsWithExpansions =
          t.allAssertionsWithExpansions ∧
        (t.addAssertion a).allSectionInfo = t.allSectionInfo ∧
        (t.addAssertion a).allSectionStats = t.allSectionStats) ∧
    (s.currentTraversal.allSectionInfo ≠ [] →
      (s.sectionStarting si now).currentTraversal.allSectionInfo =
        s.currentTraversal.allSectionInfo ++ [si]) ∧
    (s.currentTraversal.allSectionInfo.length ≠
        s.currentTraversal.allSectionStats.length + 1 →
      (s.sectionEnded stats now).currentTraversal.allSectionStats =
        s.currentTraversal.allSectionStats ++ [stats]) := by
  refine ⟨?_, ?_, ?_⟩
  · intro h
    simp [IncrementalSectionTraversal.addAssertion, h]
  · intro h
    simp [IncrementalReporterBase.sectionStarting, List.isEmpty_iff, h]
  · intro h
    have hcomplete : ({ s.currentTraversal with
        allSectionStats := s.currentTraversal.allSectionStats ++ [stats] } :
          IncrementalSectionTraversal).isComplete = false := by
      simp [IncrementalSectionTraversal.isComplete]
      intro _
      omega
    simp [IncrementalReporterBase.sectionEnded, hcomplete]

/-- Claim C4 witness: the amended restriction applied to the concrete fatal
traversal and a reporter state holding it. -/
theorem fatal_restriction_amended_witness :
    (fatalTraversal.addAssertion exampleAssertion).allSectionStats =
        fatalTraversal.allSectionStats ∧
      (({ currentTestRunInfo := ""
          currentTestGroupInfo := ""
          currentTestTags := []
          completedTraversals := []
          currentTraversal := fatalTraversal
          hookLog := [] } :
            IncrementalReporterBase).sectionEnded statsB
          0).currentTraversal.allSectionStats =
        fatalTraversal.allSectionStats ++ [statsB] := by
  constructor
  · exact ((fatal_restriction_amended
      { currentTestRunInfo := ""
        currentTestGroupInfo := ""
        currentTestTags := []
        completedTraversals := []
        currentTraversal := fatalTraversal
        hookLog := [] } fatalTraversal exampleAssertion sectionA statsB 0).1
      (by decide)).2.2
  · exact (fatal_restriction_amended
      { currentTestRunInfo := ""
        currentTestGroupInfo := ""
        currentTestTags := []
        completedTraversals := []
        currentTraversal := fatalTraversal
        hookLog := [] } fatalTraversal exampleAssertion sectionA statsB
      0).2.2 (by decide)

theorem foldl_pushback (l acc : List IncrementalSectionTraversal) :
    l.foldl (fun a t => a ++ [t]) acc = acc ++ l := by
  induction l generalizing acc with
  | nil => simp
  | cons t rest ih => simp [List.foldl, ih]

/-- Claim C5: getTraversals returns exactly the completed traversals in order
followed by the current in-flight record if and only if that record's section
path is non-empty; a current record with zero sections never appears. -/
theorem getTraversals_spec (s : IncrementalReporterBase) :
    s.getTraversals =
        s.completedTraversals ++
          (if s.currentTraversal.allSectionInfo ≠ [] then [s.currentTraversal]
           else []) ∧
      (s.currentTraversal.allSectionInfo = [] →
        s.getTraversals = s.completedTraversals) ∧
      (s.currentTraversal.allSectionInfo ≠ [] →
        s.getTraversals = s.completedTraversals ++ [s.currentTraversal]) := by
  have hfold := foldl_pushback s.completedTraversals []
  by_cases h : s.currentTraversal.allSectionInfo = []
  · refine ⟨?_, fun _ => ?_, fun hne => absurd h hne⟩ <;>
      simp [IncrementalReporterBase.getTraversals, hfold, h]
  · refine ⟨?_, fun heq => absurd heq h, fun _ => ?_⟩ <;>
      simp [IncrementalReporterBase.getTraversals, hfold, h,
        List.isEmpty_iff]

/-- Claim C5 witness: the flattened view of a concrete state whose current
record has one open section, and of the same state with an empty current
record. -/
theorem getTraversals_spec_witness :
    ({ currentTestRunInfo := ""
       currentTestGroupInfo := ""
       currentTestTags := []
       completedTraversals := [fatalTraversal]
       currentTraversal := { IncrementalSectionTraversal.init with
         allSectionInfo := [sectionA] }
       hookLog := [] } : IncrementalReporterBase).getTraversals =
        [fatalTraversal,
          { IncrementalSectionTraversal.init with allSectionInfo := [sectionA] }] ∧
      ({ currentTestRunInfo := ""
         currentTestGroupInfo := ""
         currentTestTags := []
         completedTraversals := [fatalTraversal]
         currentTraversal := IncrementalSectionTraversal.init
         hookLog := [] } : IncrementalReporterBase).getTraversals =
        [fatalTraversal] := by
  constructor
  · exact (getTraversals_spec _).2.2 (by decide)
  · exact (getTraversals_spec _).2.1 (by decide)

/-- Claim C2: on sectionEnd the stats are appended to the current record; if
the record is then complete, pending output capture is flushed into it, its
finish time is stamped, it is moved into the completed collection exactly once
(the collection grows by that one record and keeps its prefix), the
traversal-ended hook fires, and a fresh empty current record is started
carrying over the just-closed record's still-open capture sinks; if the record
is not complete, nothing else happens. -/
theorem sectionEnded_promotion (s : IncrementalReporterBase)
    (stats : SectionStats) (now : Nat)
    (cur flushed : IncrementalSectionTraversal)
    (hcur : cur = { s.currentTraversal with
      allSectionStats := s.currentTraversal.allSectionStats ++ [stats] })
    (hfl : flushed = { cur.flushStdOut.flushStdErr with finishTime := now }) :
    (cur.isComplete = true →
      (s.sectionEnded stats now).completedTraversals =
          s.completedTraversals ++
            [{ flushed with stdOutSourceSink := none, stdErrSourceSink := none }] ∧
        (s.sectionEnded stats now).completedTraversals.length =
          s.completedTraversals.length + 1 ∧
        flushed.stdOutStream = cur.stdOutStream ++
          (match s.currentTraversal.stdOutSourceSink with
           | some sink => String.mk sink.contents
           | none => "") ∧
        flushed.finishTime = now ∧
        (s.sectionEnded stats now).hookLog =
          s.hookLog ++ [HookEvent.traversalEnded] ∧
        (s.sectionEnded stats now).currentTraversal =
          { IncrementalSectionTraversal.init with
            stdOutSourceSink := flushed.stdOutSourceSink
            stdErrSourceSink := flushed.stdErrSourceSink }) ∧
    (cur.isComplete = false →
      (s.sectionEnded stats now).completedTraversals =
          s.completedTraversals ∧
        (s.sectionEnded stats now).hookLog = s.hookLog ∧
        (s.sectionEnded stats now).currentTraversal = cur) := by
  subst hcur
  subst hfl
  constructor
  · intro h
    refine ⟨?_, ?_, ?_, rfl, ?_, ?_⟩
    · simp [IncrementalReporterBase.sectionEnded, h]
    · simp [IncrementalReporterBase.sectionEnded, h]
    · cases ht : s.currentTraversal.stdOutSourceSink <;>
        cases ht2 : s.currentTraversal.stdErrSourceSink <;>
          simp [IncrementalSectionTraversal.flushStdOut,
            IncrementalSectionTraversal.flushStdErr,
            OutputRedirectSink.getAllContents,
            OutputRedirectSink.getContentsFromPosition, ht, ht2]
    · simp [IncrementalReporterBase.sectionEnded, h]
    · simp [IncrementalReporterBase.sectionEnded, h]
  · intro h
    refine ⟨?_, ?_, ?_⟩ <;> simp [IncrementalReporterBase.sectionEnded, h]

/-- Claim C2 witness: closing the only open section of `promotionState`
promotes the record (the completed collection reaches length 1, the hook log
gains a traversal-ended event, and the new current record is empty with the
sink carried over). -/
theorem sectionEnded_promotion_witness :
    (promotionState.sectionEnded statsA 7).completedTraversals.length = 1 ∧
      (promotionState.sectionEnded statsA 7).hookLog =
        [HookEvent.traversalEnded] ∧
      (promotionState.sectionEnded statsA 7).currentTraversal.allSectionInfo =
        [] := by
  have h := (sectionEnded_promotion promotionState statsA 7
    { promotionState.currentTraversal with
      allSectionStats := promotionState.currentTraversal.allSectionStats ++
        [statsA] }
    _ rfl rfl).1 (by decide)
  refine ⟨?_, ?_, ?_⟩
  · simpa using h.2.1
  · simpa using h.2.2.2.2.1
  · rw [h.2.2.2.2.2]
    rfl

/-- Claim C10: on testCaseEnded the accumulated test-case stdout/stderr is
appended (after a capture flush) to the most recently completed traversal —
mutating it even though it was already promoted, while all earlier completed
traversals and the current record stay unchanged — except that with no
completed traversal or a fatal signal on the current record, the text goes to
the current record and the completed collection stays unchanged. -/
theorem testCaseEnded_appends_to_latest (s : IncrementalReporterBase)
    (t : IncrementalSectionTraversal) (st : TestCaseStats) :
    (s.completedTraversals ≠ [] → s.currentTraversal.fatalSignalName = "" →
      (s.testCaseEnded st).currentTraversal = s.currentTraversal ∧
        (s.testCaseEnded st).completedTraversals.dropLast =
          s.completedTraversals.dropLast ∧
        (s.testCaseEnded st).completedTraversals.length =
          s.completedTraversals.length ∧
        (s.testCaseEnded st).completedTraversals.getLast? =
          some (appendRedirectedOutput
            (s.completedTraversals.getLastD IncrementalSectionTraversal.init)
            st)) ∧
    (s.completedTraversals = [] ∨ s.currentTraversal.fatalSignalName ≠ "" →
      (s.testCaseEnded st).completedTraversals = s.completedTraversals ∧
        (s.testCaseEnded st).currentTraversal =
          appendRedirectedOutput s.currentTraversal st) ∧
    ((appendRedirectedOutput t st).stdOutStream =
        t.flushStdOut.stdOutStream ++ st.stdOut ∧
      (appendRedirectedOutput t st).stdErrStream =
        t.flushStdErr.stdErrStream ++ st.stdErr) := by
  refine ⟨?_, ?_, ?_⟩
  · intro h1 h2
    have hcond : ¬(s.completedTraversals.isEmpty ∨
        s.currentTraversal.fatalSignalName ≠ "") := by
      simp [List.isEmpty_iff, h1, h2]
    refine ⟨?_, ?_, ?_, ?_⟩ <;>
      simp [IncrementalReporterBase.testCaseEnded, hcond, h1, h2,
        List.dropLast_concat, List.length_dropLast,
        Nat.sub_add_cancel (List.length_pos.mpr h1)]
  · intro h
    have hcond : s.completedTraversals = [] ∨
        ¬s.currentTraversal.fatalSignalName = "" := h
    exact ⟨by simp [IncrementalReporterBase.testCaseEnded, hcond],
      by simp [IncrementalReporterBase.testCaseEnded, hcond]⟩
  · constructor <;>
      cases ht : t.stdOutSourceSink <;>
        cases ht2 : t.stdErrSourceSink <;>
          simp [appendRedirectedOutput, IncrementalSectionTraversal.flushStdOut,
            IncrementalSectionTraversal.flushStdErr, ht, ht2]

/-- Claim C10 witness: with one completed traversal and a clean current
record, a testCaseEnded with stdout "hello" leaves the current record alone
and rewrites the completed traversal's stdout; with no completed traversals
the text instead lands on the current record. -/
theorem testCaseEnded_appends_to_latest_witness :
    (({ promotionState with
        completedTraversals := [IncrementalSectionTraversal.init] } :
          IncrementalReporterBase).testCaseEnded
        { stdOut := "hello", stdErr := "" }).currentTraversal =
        promotionState.currentTraversal ∧
      (promotionState.testCaseEnded
          { stdOut := "hello", stdErr := "" }).completedTraversals = [] := by
  constructor
  · exact ((testCaseEnded_appends_to_latest
      { promotionState with
        completedTraversals := [IncrementalSectionTraversal.init] }
      IncrementalSectionTraversal.init
      { stdOut := "hello", stdErr := "" }).1 (by decide) (by decide)).1
  · exact ((testCaseEnded_appends_to_latest promotionState
      IncrementalSectionTraversal.init
      { stdOut := "hello", stdErr := "" }).2.1 (Or.inl (by decide))).1

theorem sanitizeLoop_inTag_none (cs : List Char) (lastChar : Char)
    (acc : List Char) (h : ']' ∉ cs) :
    sanitizeLoop cs SanMode.inTag lastChar acc = none := by
  induction cs with
  | nil => rfl
  | cons c rest ih =>
      have hc : ¬c = ']' := fun hx => h (hx ▸ List.mem_cons_self c rest)
      have hr : ']' ∉ rest := fun hx => h (List.mem_cons_of_mem c hx)
      simp only [sanitizeLoop, if_neg hc]
      exact ih hr

theorem sanitizeLoop_unclosed (cs : List Char) : ∀ (pre suf : List Char)
    (mode : SanMode) (lastChar : Char) (acc : List Char),
    cs = pre ++ '[' :: suf → ']' ∉ suf →
    sanitizeLoop cs mode lastChar acc = none := by
  induction cs with
  | nil =>
      intro pre suf _ _ _ hcs _
      exact absurd hcs (by simp)
  | cons c rest ih =>
      intro pre suf mode lastChar acc hcs hsuf
      cases pre with
      | nil =>
          simp only [List.nil_append, List.cons.injEq] at hcs
          obtain ⟨hc, hr⟩ := hcs
          subst hc
          subst hr
          cases mode with
          | normal =>
              simp only [sanitizeLoop, if_pos rfl]
              exact sanitizeLoop_inTag_none rest lastChar acc hsuf
          | inTag =>
              have : ¬('[' : Char) = ']' := by decide
              simp only [sanitizeLoop, if_neg this]
              exact sanitizeLoop_inTag_none rest lastChar acc hsuf
          | afterTag =>
              have h1 : ¬(lastChar = ' ' ∧ ('[' : Char) = ' ') := by
                rintro ⟨-, hx⟩
                exact absurd hx (by decide)
              simp only [sanitizeLoop, if_neg h1, if_pos rfl]
              exact sanitizeLoop_inTag_none rest lastChar acc hsuf
      | cons p pre1 =>
          simp only [List.cons_append, List.cons.injEq] at hcs
          obtain ⟨hc, hr⟩ := hcs
          subst hc
          subst hr
          cases mode with
          | inTag =>
              rw [sanitizeLoop]
              by_cases hp : c = ']'
              · rw [if_pos hp]
                exact ih pre1 suf _ _ _ rfl hsuf
              · rw [if_neg hp]
                exact ih pre1 suf _ _ _ rfl hsuf
          | normal =>
              rw [sanitizeLoop]
              by_cases hp1 : c = '['
              · rw [if_pos hp1]
                exact ih pre1 suf _ _ _ rfl hsuf
              · by_cases hp2 : c = ','
                · rw [if_neg hp1, if_pos hp2]
                  exact ih pre1 suf _ _ _ rfl hsuf
                · rw [if_neg hp1, if_neg hp2]
                  exact ih pre1 suf _ _ _ rfl hsuf
          | afterTag =>
              rw [sanitizeLoop]
              by_cases hp0 : lastChar = ' ' ∧ c = ' '
              · rw [if_pos hp0]
                exact ih pre1 suf _ _ _ rfl hsuf
              · by_cases hp1 : c = '['
                · rw [if_neg hp0, if_pos hp1]
                  exact ih pre1 suf _ _ _ rfl hsuf
                · by_cases hp2 : c = ','
                  · rw [if_neg hp0, if_neg hp1, if_pos hp2]
                    exact ih pre1 suf _ _ _ rfl hsuf
                  · rw [if_neg hp0, if_neg hp1, if_neg hp2]
                    exact ih pre1 suf _ _ _ rfl hsuf

theorem sanitizeLoop_no_comma (cs : List Char) : ∀ (mode : SanMode)
    (lastChar : Char) (acc out : List Char), ',' ∉ acc →
    sanitizeLoop cs mode lastChar acc = some out → ',' ∉ out := by
  induction cs with
  | nil =>
      intro mode lastChar acc out hacc h
      cases mode <;> simp only [sanitizeLoop] at h
      · injection h with h
        exact h ▸ hacc
      · exact Option.noConfusion h
      · injection h with h
        exact h ▸ hacc
  | cons c rest ih =>
      intro mode lastChar acc out hacc h
      cases mode with
      | inTag =>
          by_cases hp : c = ']'
          · rw [sanitizeLoop, if_pos hp] at h
            exact ih _ _ _ _ hacc h
          · rw [sanitizeLoop, if_neg hp] at h
            exact ih _ _ _ _ hacc h
      | normal =>
          by_cases hp1 : c = '['
          · rw [sanitizeLoop, if_pos hp1] at h
            exact ih _ _ _ _ hacc h
          · by_cases hp2 : c = ','
            · rw [sanitizeLoop, if_neg hp1, if_pos hp2] at h
              exact ih _ _ _ _ hacc h
            · rw [sanitizeLoop, if_neg hp1, if_neg hp2] at h
              refine ih _ _ _ _ ?_ h
              intro hx
              rcases List.mem_append.mp hx with hx | hx
              · exact hacc hx
              · simp at hx
                exact hp2 hx.symm
      | afterTag =>
          by_cases hp0 : lastChar = ' ' ∧ c = ' '
          · rw [sanitizeLoop, if_pos hp0] at h
            exact ih _ _ _ _ hacc h
          · by_cases hp1 : c = '['
            · rw [sanitizeLoop, if_neg hp0, if_pos hp1] at h
              exact ih _ _ _ _ hacc h
            · by_cases hp2 : c = ','
              · rw [sanitizeLoop, if_neg hp0, if_neg hp1, if_pos hp2] at h
                exact ih _ _ _ _ hacc h
              · rw [sanitizeLoop, if_neg hp0, if_neg hp1, if_neg hp2] at h
                refine ih _ _ _ _ ?_ h
                intro hx
                rcases List.mem_append.mp hx with hx | hx
                · exact hacc hx
                · simp at hx
                  exact hp2 hx.symm

theorem mem_of_mem_trimChars (x : Char) (cs : List Char)
    (h : x ∈ trimChars cs) : x ∈ cs := by
  unfold trimChars at h
  have h1 := List.mem_reverse.mp h
  have h2 := (List.dropWhile_sublist isTrimWhitespace).subset h1
  have h3 := List.mem_reverse.mp h2
  exact (List.dropWhile_sublist isTrimWhitespace).subset h3

/-- Claim C8: name sanitization maps "foo [tag1] bar" to "foo bar" and "a, b"
to "a b"; any name containing a `[` with no `]` anywhere after it produces the
hard CATCH_ERROR rather than a string; and no successful result ever contains
a comma. -/
theorem getSanitizedTrxName_spec :
    getSanitizedTrxName "foo [tag1] bar" = Except.ok "foo bar" ∧
      getSanitizedTrxName "a, b" = Except.ok "a b" ∧
      (∀ (raw : String) (pre suf : List Char),
        raw.toList = pre ++ '[' :: suf → ']' ∉ suf →
        getSanitizedTrxName raw =
          Except.error ("Unclosed [tag] in name: " ++ raw)) ∧
      (∀ (raw out : String), getSanitizedTrxName raw = Except.ok out →
        ',' ∉ out.toList) := by
  refine ⟨rfl, rfl, ?_, ?_⟩
  · intro raw pre suf hdec hsuf
    unfold getSanitizedTrxName
    rw [hdec, sanitizeLoop_unclosed _ pre suf _ _ _ rfl hsuf]
  · intro raw out h
    unfold getSanitizedTrxName at h
    cases hs : sanitizeLoop raw.toList SanMode.normal (Char.ofNat 0) [] with
    | none =>
        rw [hs] at h
        exact Except.noConfusion h
    | some cs =>
        rw [hs] at h
        injection h with h
        have hnc := sanitizeLoop_no_comma raw.toList SanMode.normal
          (Char.ofNat 0) [] cs (by simp) hs
        intro hx
        rw [← h] at hx
        exact hnc (mem_of_mem_trimChars _ _ hx)

/-- Claim C8 witness: the hard-error branch applied to "foo [unclosed" and the
comma-freedom applied to the sanitization of "a, b". -/
theorem getSanitizedTrxName_spec_witness :
    getSanitizedTrxName "foo [unclosed" =
        Except.error "Unclosed [tag] in name: foo [unclosed" ∧
      ',' ∉ "a b".toList := by
  constructor
  · have h := getSanitizedTrxName_spec.2.2.1 "foo [unclosed" "foo ".toList
      "unclosed".toList (by decide) (by decide)
    exact h
  · exact getSanitizedTrxName_spec.2.2.2 "a, b" "a b" rfl

/-- Claim C7 counterexample: two traversals whose first section identifiers
differ (same name "A", different source lines) are nevertheless merged by the
grouper into one single group, because grouping compares only the sanitized
root-section name. -/
theorem grouping_identifier_counterexample :
    unwindRootLine1.allSectionInfo.head? ≠ unwindRootLine2.allSectionInfo.head? ∧
      runGrouping [unwindRootLine1, unwindRootLine2] =
        Except.ok
          [{ name := "A"
             tags := []
             unwindContexts := [unwindRootLine1, unwindRootLine2] }] := by
  constructor
  · decide
  · rfl

/-- Claim C7 (amended): the grouper is a single forward pass that starts a new
group exactly when there is no group yet or the sanitized name of the
traversal's root section (the name carried by its last section stats entry)
differs from the name of the group-opening traversal's root — source locations
are not compared; on the list A/B, A/C, X/Y it produces exactly the groups
(A: A/B, A/C) and (X: X/Y). -/
theorem flushCurrentUnwindContext_grouping (s : VstestReporterState)
    (elapsed : Nat) (now : String) (lastStats : SectionStats) (sn : String)
    (hlast : s.currentUnwindContext.allSectionStats.getLast? = some lastStats)
    (hsan : getSanitizedTrxName lastStats.sectionInfo.name = Except.ok sn) :
    ((s.completedTestEntries = [] ∨
        ∀ entry, s.completedTestEntries.getLast? = some entry →
          entry.name ≠ sn) →
      s.flushCurrentUnwindContext elapsed now = Except.ok { s with
        completedTestEntries := s.completedTestEntries ++
          [{ name := sn
             tags := s.currentTestCaseTags
             unwindContexts := [{ s.currentUnwindContext with
               elapsedNanoseconds := elapsed
               endTimestamp := now }] }]
        currentUnwindContext := ({ s.currentUnwindContext with
          elapsedNanoseconds := elapsed
          endTimestamp := now } :
            StreamingReporterUnwindContext).afterMoveAndClear }) ∧
    (∀ entry, s.completedTestEntries.getLast? = some entry → entry.name = sn →
      s.flushCurrentUnwindContext elapsed now = Except.ok { s with
        completedTestEntries := s.completedTestEntries.dropLast ++
          [{ entry with unwindContexts := entry.unwindContexts ++
            [{ s.currentUnwindContext with
               elapsedNanoseconds := elapsed
               endTimestamp := now }] }]
        currentUnwindContext := ({ s.currentUnwindContext with
          elapsedNanoseconds := elapsed
          endTimestamp := now } :
            StreamingReporterUnwindContext).afterMoveAndClear }) ∧
    runGrouping [unwindAB, unwindAC, unwindXY] =
      Except.ok
        [{ name := "A", tags := [], unwindContexts := [unwindAB, unwindAC] },
          { name := "X", tags := [], unwindContexts := [unwindXY] }] := by
  refine ⟨?_, ?_, rfl⟩
  · intro h
    unfold VstestReporterState.flushCurrentUnwindContext
    rw [hlast]
    simp only
    rw [hsan]
    simp only
    cases hE : s.completedTestEntries.getLast? with
    | none =>
        have : s.completedTestEntries = [] := by
          cases hv : s.completedTestEntries with
          | nil => rfl
          | cons a l => rw [hv] at hE; simp at hE
        simp [hE]
    | some entry =>
        have hne : entry.name ≠ sn := by
          rcases h with h | h
          · rw [h] at hE; simp at hE
          · exact h entry hE
        simp [hE, hne]
  · intro entry hE hname
    unfold VstestReporterState.flushCurrentUnwindContext
    rw [hlast]
    simp only
    rw [hsan]
    simp only
    rw [hE]
    simp [hname]

/-- Claim C7 witness: flushing the A/C traversal while the last group is named
"A" appends it to that group instead of opening a new one. -/
theorem flushCurrentUnwindContext_grouping_witness :
    c7State.flushCurrentUnwindContext 0 "x" = Except.ok
      { completedTestEntries :=
          [{ name := "A"
             tags := []
             unwindContexts :=
              [unwindAB,
                { unwindAC with elapsedNanoseconds := 0, endTimestamp := "x" }] }]
        currentUnwindContext := ({ unwindAC with
          elapsedNanoseconds := 0
          endTimestamp := "x" } :
            StreamingReporterUnwindContext).afterMoveAndClear
        currentTestCaseTags := [] } := by
  have h := (flushCurrentUnwindContext_grouping c7State 0 "x"
    { sectionInfo := sectionA } "A" rfl rfl).2.1
    { name := "A", tags := [], unwindContexts := [unwindAB] } rfl rfl
  rw [h]
  rfl

end Catch2
